import Mathlib

/-!
Verification of the OnlineServer socket/session/event core.

The definitions below are a shallow embedding of the TypeScript source:
`RoomManager` and the `Server` class (connection handshake, event routing,
latency tracking, room fan-out) together with the two process-shutdown
handlers.  JavaScript `Map`s are modelled as association lists in insertion
order (JS `Map` iteration is insertion order); in-place mutation of a room
object fetched from the map is modelled as a positional update of the list.
WebSocket handles are modelled as natural numbers; clock reads (`Date.now()`)
are passed in as explicit parameters.
-/

namespace OnlineServer

/-- A room, from the `Room` interface: `{ id, players, maxPlayers, createdAt }`. -/
structure Room where
  id : String
  players : List String
  maxPlayers : Nat
  createdAt : Nat
deriving Repr, DecidableEq

/-- The `RoomManager`'s `rooms: Map<RoomId, Room>`, as a list of rooms in
insertion order (the map key of each entry is the room's `id` field). -/
structure RoomManager where
  rooms : List Room
deriving Repr, DecidableEq

/-- `array.splice(array.indexOf(x), 1)`: remove the first occurrence of `x`. -/
def removeFirst (p : String) : List String → List String
  | [] => []
  | x :: xs => if x = p then xs else x :: removeFirst p xs

/-- `Map.set(id, room)`: replace the entry whose key equals `room.id` in place,
or append a new entry at the end when the key is absent. -/
def setRoom : List Room → Room → List Room
  | [], r => [r]
  | x :: xs, r => if x.id = r.id then r :: xs else x :: setRoom xs r

namespace RoomManager

/-- `RoomManager.getRoom`: `this.rooms.get(roomId)`. -/
def getRoom (m : RoomManager) (roomId : String) : Option Room :=
  m.rooms.find? (fun r => decide (r.id = roomId))

/-- `RoomManager.getRoomByPlayer`: first room (in map order) whose `players`
array includes the player. -/
def getRoomByPlayer (m : RoomManager) (p : String) : Option Room :=
  m.rooms.find? (fun r => decide (p ∈ r.players))

/-- `RoomManager.createRoom`: build a room with the freshly generated id
(`crypto.randomUUID()`, passed in as `freshId`), the creator as only member,
`maxPlayers = 4` and `createdAt = Date.now()`, and `set` it into the map. -/
def createRoom (m : RoomManager) (playerId freshId : String) (now : Nat) :
    Room × RoomManager :=
  let room : Room := { id := freshId, players := [playerId], maxPlayers := 4, createdAt := now }
  (room, ⟨setRoom m.rooms room⟩)

/-- `RoomManager.joinRoom`: `null` when the room is absent or
`players.length >= maxPlayers`; otherwise push the joiner onto the room's
`players` array (in-place mutation, modelled as a positional `setRoom`). -/
def joinRoom (m : RoomManager) (playerId roomId : String) : Option Room × RoomManager :=
  match m.getRoom roomId with
  | none => (none, m)
  | some room =>
    if room.maxPlayers ≤ room.players.length then (none, m)
    else
      let room' : Room := { room with players := room.players ++ [playerId] }
      (some room', ⟨setRoom m.rooms room'⟩)

/-- Body of `RoomManager.leaveRoom`: walk the entries in insertion order; in
the first room whose `players` includes the player, splice out the first
occurrence; delete the room when it becomes empty; then `break`. -/
def leaveRoomAux (p : String) : List Room → List Room
  | [] => []
  | r :: rs =>
    if p ∈ r.players then
      let players' := removeFirst p r.players
      if players' = [] then rs
      else { r with players := players' } :: rs
    else r :: leaveRoomAux p rs

/-- `RoomManager.leaveRoom`. -/
def leaveRoom (m : RoomManager) (p : String) : RoomManager :=
  ⟨leaveRoomAux p m.rooms⟩

end RoomManager

/-- The concatenation of all rooms' member lists. -/
def allMembers (m : RoomManager) : List String :=
  (m.rooms.map Room.players).flatten

/-- Each player id occurs at most once in the union of all rooms' member
lists (so a player is in at most one room, at most once within it). -/
def membersAtMostOnce (m : RoomManager) : Prop :=
  (allMembers m).Nodup

instance (m : RoomManager) : Decidable (membersAtMostOnce m) :=
  inferInstanceAs (Decidable (allMembers m).Nodup)

/-- Per-session latency record, from the `LatencyData` type:
`{ lastPing, latency }` (milliseconds, integer `Date.now()` arithmetic). -/
structure LatencyData where
  lastPing : Nat
  latency : Nat
deriving Repr, DecidableEq

/-- State of the `Server` class: `clients: Map<string, WebSocket>` and
`latencies: Map<string, LatencyData>` as association lists in insertion
order, the `RoomManager`, and the set of event names having a registered
handler in `eventHandlers` (handler bodies are external collaborators; the
router only looks a handler up by name and invokes it). -/
structure ServerState where
  clients : List (String × Nat)
  latencies : List (String × LatencyData)
  eventHandlers : List String
  roomManager : RoomManager
deriving Repr, DecidableEq

/-- Shapes of the JSON values the core places in a frame's `data` field at
its `emit`/`send` call sites: `{error: code}`, `{error: code, message}`,
`{payload: room}`, and a raw `Room` object. -/
inductive JsonData where
  | errorCode (code : String)
  | errorMsg (code message : String)
  | wrappedRoom (room : Room)
  | rawRoom (room : Room)
deriving Repr, DecidableEq

/-- Observable effects of the connection and event handlers: sending a frame
`{event, data}` on a socket, closing a socket, invoking the handler
registered under an event name, and logging. -/
inductive Action where
  | send (ws : Nat) (event : String) (data : JsonData)
  | close (ws : Nat)
  | invokeHandler (event : String) (ws : Nat)
  | logWarn (message : String)
deriving Repr, DecidableEq

/-- `Server.getClientId`: first entry of `clients` whose socket is `ws`. -/
def getClientId (s : ServerState) (ws : Nat) : Option String :=
  (s.clients.find? (fun c => decide (c.2 = ws))).map (·.1)

/-- `Server.getClientWebsocket`: `this.clients.get(playerId)`. -/
def getClientWebsocket (s : ServerState) (p : String) : Option Nat :=
  (s.clients.find? (fun c => decide (c.1 = p))).map (·.2)

/-- `this.clients.has(playerId)`. -/
def clientsHas (s : ServerState) (pid : String) : Bool :=
  s.clients.any (fun c => decide (c.1 = pid))

/-- `this.latencies.set(playerId, d)`: replace in place or append. -/
def setLatency : List (String × LatencyData) → String → LatencyData →
    List (String × LatencyData)
  | [], p, d => [(p, d)]
  | x :: xs, p, d => if x.1 = p then (p, d) :: xs else x :: setLatency xs p d

/-- The socket `close` listener: delete the first `clients` entry whose
socket is `ws`, then `break`.  The `latencies` map is not touched. -/
def removeClientByWs : List (String × Nat) → Nat → List (String × Nat)
  | [], _ => []
  | c :: cs, ws => if c.2 = ws then cs else c :: removeClientByWs cs ws

/-- Effect of the `ws.on('close')` handler on the server state. -/
def handleClose (s : ServerState) (ws : Nat) : ServerState :=
  { s with clients := removeClientByWs s.clients ws }

/-- An authorization token as the handshake sees it: which secret produced
its signature, whether it is expired, and its literal string value. -/
structure Token where
  signedWith : String
  expired : Bool
  value : String
deriving Repr, DecidableEq

/-- Contract of `jsonwebtoken.verify(token, SECRET_KEY)` (external library):
it succeeds exactly when the token's signature was produced with
`secretKey` and the token is not expired; otherwise it throws. -/
def verifyOk (secretKey : String) (t : Token) : Bool :=
  decide (t.signedWith = secretKey) && !t.expired

/-- `Server.rejectConnection`: send one
`{event:'error', data:{error: code, message}}` frame, then close. -/
def rejectConnection (ws : Nat) (code message : String) : List Action :=
  [Action.send ws "error" (JsonData.errorMsg code message), Action.close ws]

/-- The `wss.on('connection')` handler of the `Server` constructor.
`token`/`playerIdHeader` are the `authorization` and `player-id` headers
(`none` when absent; a missing or empty `player-id` is falsy).  When
`verify` throws (missing header, wrong secret, or expired), the catch block
rejects with `ERR_MISSING_TOKEN`; a verified token that differs from the
static `TOKEN_SERVER` value is rejected with `ERR_VALID_TOKEN`; then the
missing-id and duplicate-id checks run; otherwise the client is registered. -/
def handleConnection (s : ServerState) (secretKey tokenServer : String)
    (token : Option Token) (playerIdHeader : Option String) (ws : Nat) :
    ServerState × List Action :=
  match token with
  | none => (s, rejectConnection ws "ERR_MISSING_TOKEN" "Missing authentication token")
  | some t =>
    if !verifyOk secretKey t then
      (s, rejectConnection ws "ERR_MISSING_TOKEN" "Missing authentication token")
    else if t.value ≠ tokenServer then
      (s, rejectConnection ws "ERR_VALID_TOKEN" "Access denied. The token is no longer valid.")
    else
      let pid := playerIdHeader.getD ""
      if pid = "" then
        (s, rejectConnection ws "ERR_MISSING_PLAYER_ID" "Missing player_id in connection request")
      else if clientsHas s pid then
        (s, rejectConnection ws "ERR_ALREADY_CONNECTED" "Player is already connected")
      else
        ({ s with clients := s.clients ++ [(pid, ws)] }, [])

/-- `Server.getGlobalLatency`: take all stored latency values, keep the
strictly positive ones, return `null` when none remain, else their sum
divided by their count (exact rational arithmetic models the JS division). -/
def getGlobalLatency (s : ServerState) : Option ℚ :=
  let latencies : List Nat :=
    (s.latencies.map (fun d => d.2.latency)).filter (fun l => decide (0 < l))
  if latencies.length = 0 then none
  else some ((latencies.sum : ℚ) / (latencies.length : ℚ))

/-- The three event names the `switch` in `handleEvent` intercepts. -/
def roomEventNames : List String := ["create_room", "join_room", "leave_room"]

/-- The payload of an inbound frame, as far as the router inspects it: either
`data.roomId` is a string with the given value, or it is anything else
(absent field, non-string field, arbitrary other payload). -/
inductive EventData where
  | withRoomId (roomId : String)
  | otherData
deriving Repr, DecidableEq

/-- The `switch (event)` block of `Server.handleEvent`.  Returns the state
after the room mutation, the emitted actions, and whether the block
`return`ed early (only the `join_room` non-string-`roomId` branch does).
In the `leave_room` case the `room` local is the very object the manager
mutates, so after `leaveRoom` its `players` array has the leaver spliced
out: the fan-out reaches exactly the remaining members and carries the
updated room. -/
def handleBuiltin (s : ServerState) (event : String) (data : EventData)
    (ws : Nat) (playerId freshRoomId : String) (t0 : Nat) :
    ServerState × List Action × Bool :=
  if event = "create_room" then
    let res := s.roomManager.createRoom playerId freshRoomId t0
    ({ s with roomManager := res.2 },
     [Action.send ws "room_created" (JsonData.wrappedRoom res.1)], false)
  else if event = "join_room" then
    match data with
    | EventData.withRoomId roomId =>
      match s.roomManager.joinRoom playerId roomId with
      | (none, _) =>
        (s, [Action.send ws "error" (JsonData.errorCode "ROOM_FULL_OR_NOT_FOUND")], false)
      | (some room, rm) =>
        ({ s with roomManager := rm },
         room.players.filterMap (fun pid =>
           (getClientWebsocket s pid).map (fun w =>
             Action.send w "room_updated" (JsonData.wrappedRoom room))), false)
    | EventData.otherData =>
      (s, [Action.send ws "error" (JsonData.errorCode "INVALID_ROOM_ID")], true)
  else if event = "leave_room" then
    match s.roomManager.getRoomByPlayer playerId with
    | none => ({ s with roomManager := s.roomManager.leaveRoom playerId }, [], false)
    | some room =>
      let roomAfter : Room := { room with players := removeFirst playerId room.players }
      ({ s with roomManager := s.roomManager.leaveRoom playerId },
       roomAfter.players.filterMap (fun pid =>
         (getClientWebsocket s pid).map (fun w =>
           Action.send w "room_updated" (JsonData.rawRoom roomAfter))), false)
  else (s, [], false)

/-- The tail of `Server.handleEvent` after the `switch`: look the event up in
`eventHandlers`; when present invoke it, and unless it throws record
`latency = Date.now() - start` for the sender; when absent and the event is
not a built-in room event, log a warning. -/
def handleDispatch (s1 : ServerState) (event playerId : String) (ws : Nat)
    (t0 t1 : Nat) (handlerThrows : Bool) (acts : List Action) :
    ServerState × List Action :=
  if event ∈ s1.eventHandlers then
    if handlerThrows then
      (s1, acts ++ [Action.invokeHandler event ws,
                    Action.logWarn ("Error handling event " ++ event)])
    else
      ({ s1 with latencies := setLatency s1.latencies playerId ⟨t1, t1 - t0⟩ },
       acts ++ [Action.invokeHandler event ws])
  else if event ∈ roomEventNames then (s1, acts)
  else (s1, acts ++ [Action.logWarn ("No handler for event: " ++ event)])

/-- `Server.handleEvent`: resolve the sender via reverse lookup (dropping the
frame when it fails), run the built-in `switch`, then — unless that block
`return`ed — the generic dispatch.  `t0` is the `start` clock read, `t1` the
clock read after the handler completes, `freshRoomId` the UUID
`createRoom` would generate, `handlerThrows` whether the invoked handler
throws. -/
def handleEvent (s : ServerState) (event : String) (data : EventData)
    (ws : Nat) (freshRoomId : String) (t0 t1 : Nat) (handlerThrows : Bool) :
    ServerState × List Action :=
  match getClientId s ws with
  | none => (s, [Action.logWarn "Player ID not found for the WebSocket connection"])
  | some playerId =>
    match handleBuiltin s event data ws playerId freshRoomId t0 with
    | (s1, acts, true) => (s1, acts)
    | (s1, acts, false) => handleDispatch s1 event playerId ws t0 t1 handlerThrows acts

/-- The event names registered in the default handler table
(`websocket/events/index.ts`: `error` plus the player, friend, gift and gts
event groups). -/
def defaultEventNames : List String :=
  ["error",
   "playerCreate", "playerDelete", "playerUpdate",
   "friendRequest", "friendAccept", "friendDecline", "friendRemove",
   "friendList", "friendPending",
   "giftList", "giftClaim", "giftClaimByCode", "giftClaimById",
   "gtsAdd", "gtsTrade", "gtsAllList", "gtsRemove"]

/-- Modelled from the spec: the error-code list of §6
("Rejection responses use ... with codes") together with the room error code
of §4.4 — the complete set of error codes the spec names. -/
def specErrorCodes : List String :=
  ["ERR_MISSING_TOKEN", "ERR_VALID_TOKEN", "ERR_MISSING_PLAYER_ID",
   "ERR_ALREADY_CONNECTED", "ROOM_FULL_OR_NOT_FOUND"]

/-- Primitive steps the two shutdown handlers perform. -/
inductive ShutdownAction where
  | broadcastAll (event message : String)
  | closeSocketIOServer
  | stopKoaServer
  | closeHttpServer
  | closeDatabase
  | exitProcess (code : Nat)
deriving Repr, DecidableEq

/-- What one run of a termination-signal handler does: the actions executed
synchronously, and — when a `setTimeout` is armed — its delay and the
actions of its callback. -/
structure ShutdownTrace where
  immediate : List ShutdownAction
  delayMs : Option Nat
  delayed : List ShutdownAction
deriving Repr, DecidableEq

/-- `SocketServer.handleProcessShutdown`'s SIGINT/SIGTERM listener
(socket.io entry point): broadcast `server_shutdown` to all clients, then
`setTimeout(..., 5000)` closing the socket.io server, stopping the Koa
server and exiting.  `process.on` keeps the listener installed, so the
`n`-th signal received runs the very same body. -/
def socketServerOnSignal (n : Nat) : ShutdownTrace :=
  { immediate := [ShutdownAction.broadcastAll "server_shutdown" "The server is shutting down"],
    delayMs := some 5000,
    delayed := [ShutdownAction.closeSocketIOServer, ShutdownAction.stopKoaServer,
                ShutdownAction.exitProcess 0] }

/-- `setupGracefulShutdown`'s `shutdown(signal)` in `src/index.ts` (ws entry
point): close the HTTP server, close the database, `process.exit(0)` — all
synchronously in the handler, no broadcast and no timer. -/
def indexShutdown (signal : String) : ShutdownTrace :=
  { immediate := [ShutdownAction.closeHttpServer, ShutdownAction.closeDatabase,
                  ShutdownAction.exitProcess 0],
    delayMs := none,
    delayed := [] }

/-- Whether a shutdown step is a broadcast to all connected clients. -/
def isBroadcast : ShutdownAction → Bool
  | ShutdownAction.broadcastAll _ _ => true
  | _ => false

/-- Whether a shutdown step terminates the process. -/
def isExit : ShutdownAction → Bool
  | ShutdownAction.exitProcess _ => true
  | _ => false

/-- The instants (relative to the signal arriving at `start`) at which a
trace terminates the process: immediate exits happen at `start`, exits in a
`setTimeout` callback at `start + delay`. -/
def exitTimes (start : Nat) (tr : ShutdownTrace) : List Nat :=
  (tr.immediate.filter isExit).map (fun _ => start) ++
    (match tr.delayMs with
     | none => []
     | some d => (tr.delayed.filter isExit).map (fun _ => start + d))

/-- Whether an action is a frame whose `data` carries the given error code. -/
def mentionsCode (code : String) : Action → Bool
  | Action.send _ _ (JsonData.errorMsg c _) => decide (c = code)
  | Action.send _ _ (JsonData.errorCode c) => decide (c = code)
  | _ => false

/-! ## General lemmas -/

/-- Unfolding of `handleEvent` when the reverse lookup resolves the sender. -/
theorem handleEvent_of_getClientId (s : ServerState) (event : String)
    (data : EventData) (ws : Nat) (freshRoomId : String) (t0 t1 : Nat)
    (handlerThrows : Bool) (p : String) (hid : getClientId s ws = some p) :
    handleEvent s event data ws freshRoomId t0 t1 handlerThrows =
      match handleBuiltin s event data ws p freshRoomId t0 with
      | (s1, acts, true) => (s1, acts)
      | (s1, acts, false) => handleDispatch s1 event p ws t0 t1 handlerThrows acts := by
  unfold handleEvent
  rw [hid]

/-- `getGlobalLatency` is `null` exactly when every stored sample is zero. -/
theorem getGlobalLatency_eq_none_iff (s : ServerState) :
    getGlobalLatency s = none ↔ ∀ d ∈ s.latencies, d.2.latency = 0 := by
  have hchar : ((s.latencies.map (fun d => d.2.latency)).filter
      (fun l => decide (0 < l)) = []) ↔ ∀ d ∈ s.latencies, d.2.latency = 0 := by
    rw [List.filter_eq_nil_iff]
    constructor
    · intro h d hd
      have := h d.2.latency (List.mem_map.mpr ⟨d, hd, rfl⟩)
      simpa [Nat.pos_iff_ne_zero] using this
    · intro h l hl
      rcases List.mem_map.mp hl with ⟨d, hd, rfl⟩
      simp [h d hd]
  simp only [getGlobalLatency]
  by_cases h : (s.latencies.map (fun d => d.2.latency)).filter
      (fun l => decide (0 < l)) = []
  · rw [if_pos (by rw [h]; rfl)]
    exact iff_of_true rfl (hchar.mp h)
  · have hlen : ((s.latencies.map (fun d => d.2.latency)).filter
        (fun l => decide (0 < l))).length ≠ 0 := by
      simpa [List.length_eq_zero] using h
    rw [if_neg hlen]
    exact iff_of_false (Option.some_ne_none _) (fun hall => h (hchar.mpr hall))

/-! ## Claim C1 -/

/-- C1 counterexample: with server secret `server-secret`, a connection
whose token is signed with `wrong-secret` is rejected with one
`ERR_MISSING_TOKEN` error frame — the reply contains no `ERR_VALID_TOKEN`
frame, contrary to the claim. -/
theorem c1_counterexample :
    (handleConnection ⟨[], [], [], ⟨[]⟩⟩ "server-secret" "tok"
        (some ⟨"wrong-secret", false, "tok"⟩) (some "alice") 1).2 =
      [Action.send 1 "error"
         (JsonData.errorMsg "ERR_MISSING_TOKEN" "Missing authentication token"),
       Action.close 1] ∧
    ((handleConnection ⟨[], [], [], ⟨[]⟩⟩ "server-secret" "tok"
        (some ⟨"wrong-secret", false, "tok"⟩) (some "alice") 1).2.any
      (mentionsCode "ERR_VALID_TOKEN")) = false := by
  constructor <;> rfl

/-- C1 (amended): a connection attempt whose token is signed by the wrong
secret makes `verify` throw, so the server sends exactly one error frame
`{event:"error", data:{error:"ERR_MISSING_TOKEN", message:...}}` and then
closes the connection; no Session is created and the session registry is
unchanged.  The `ERR_VALID_TOKEN` frame is instead sent exactly when the
signature verifies (right secret, not expired) but the token string differs
from the static server-wide token. -/
theorem c1_wrong_secret_rejected (s : ServerState) (secretKey tokenServer : String)
    (t : Token) (pid : Option String) (ws : Nat)
    (h : t.signedWith ≠ secretKey) :
    handleConnection s secretKey tokenServer (some t) pid ws =
      (s, [Action.send ws "error"
             (JsonData.errorMsg "ERR_MISSING_TOKEN" "Missing authentication token"),
           Action.close ws]) ∧
    (∀ t2 : Token, t2.signedWith = secretKey → t2.expired = false →
      t2.value ≠ tokenServer →
      handleConnection s secretKey tokenServer (some t2) pid ws =
        (s, [Action.send ws "error"
               (JsonData.errorMsg "ERR_VALID_TOKEN"
                 "Access denied. The token is no longer valid."),
             Action.close ws])) := by
  constructor
  · simp [handleConnection, verifyOk, rejectConnection, h]
  · intro t2 h1 h2 h3
    simp [handleConnection, verifyOk, rejectConnection, h1, h2, h3]

/-- Witness for C1: instantiation at a concrete wrong-secret token. -/
theorem c1_witness :
    handleConnection ⟨[], [], [], ⟨[]⟩⟩ "server-secret" "tok"
        (some ⟨"wrong-secret", false, "tok"⟩) (some "alice") 1 =
      (⟨[], [], [], ⟨[]⟩⟩,
       [Action.send 1 "error"
          (JsonData.errorMsg "ERR_MISSING_TOKEN" "Missing authentication token"),
        Action.close 1]) :=
  (c1_wrong_secret_rejected ⟨[], [], [], ⟨[]⟩⟩ "server-secret" "tok"
    ⟨"wrong-secret", false, "tok"⟩ (some "alice") 1 (by decide)).1

/-! ## Claim C5 -/

/-- C5: a handshake attempt with a verified, matching token and a
`playerId` that is already registered is rejected with exactly one
`ERR_ALREADY_CONNECTED` error frame followed by a close; the server state —
in particular the registry and the existing entry for that `playerId` — is
unchanged, so no second Session is created. -/
theorem c5_duplicate_session_rejected (s : ServerState)
    (secretKey tokenServer pid : String) (t : Token) (ws : Nat)
    (hsig : t.signedWith = secretKey) (hexp : t.expired = false)
    (hval : t.value = tokenServer) (hpid : pid ≠ "")
    (hlive : clientsHas s pid = true) :
    handleConnection s secretKey tokenServer (some t) (some pid) ws =
      (s, [Action.send ws "error"
             (JsonData.errorMsg "ERR_ALREADY_CONNECTED" "Player is already connected"),
           Action.close ws]) := by
  simp [handleConnection, verifyOk, rejectConnection, hsig, hexp, hval, hpid, hlive]

/-- Witness for C5: `alice` is live on socket 7; a second handshake claiming
`alice` (valid token) is rejected and the registry keeps the entry. -/
theorem c5_witness :
    handleConnection ⟨[("alice", 7)], [], [], ⟨[]⟩⟩ "secret" "tok"
        (some ⟨"secret", false, "tok"⟩) (some "alice") 8 =
      (⟨[("alice", 7)], [], [], ⟨[]⟩⟩,
       [Action.send 8 "error"
          (JsonData.errorMsg "ERR_ALREADY_CONNECTED" "Player is already connected"),
        Action.close 8]) :=
  c5_duplicate_session_rejected ⟨[("alice", 7)], [], [], ⟨[]⟩⟩ "secret" "tok"
    "alice" ⟨"secret", false, "tok"⟩ 8 rfl rfl rfl (by decide) (by decide)

/-! ## Claim C8 -/

/-- C8 counterexample: the ws entry point's `setupGracefulShutdown` handler
broadcasts nothing, arms no timer, and terminates the process at the very
instant the signal arrives — not after a 5-second grace window. -/
theorem c8_counterexample :
    ((indexShutdown "SIGTERM").immediate.any isBroadcast = false) ∧
    (indexShutdown "SIGTERM").delayMs = none ∧
    exitTimes 0 (indexShutdown "SIGTERM") = [0] := by
  refine ⟨rfl, rfl, rfl⟩

/-- C8 (amended): the socket.io `SocketServer`'s termination-signal handler
broadcasts `server_shutdown` to all connected clients immediately and closes
the server and terminates the process exactly 5000 ms after the signal; a
second signal re-runs the identical handler (another broadcast and timer)
without crashing.  The ws entry point's `setupGracefulShutdown`, in
contrast, broadcasts nothing and closes the HTTP server and exits
immediately, with no grace window, and treats SIGINT and SIGTERM alike. -/
theorem c8_shutdown_behavior :
    (∀ n start : Nat,
      ShutdownAction.broadcastAll "server_shutdown" "The server is shutting down" ∈
        (socketServerOnSignal n).immediate ∧
      exitTimes start (socketServerOnSignal n) = [start + 5000] ∧
      socketServerOnSignal (n + 1) = socketServerOnSignal n) ∧
    (∀ sig : String,
      (indexShutdown sig).immediate.any isBroadcast = false ∧
      indexShutdown sig = indexShutdown "SIGTERM" ∧
      ∀ start : Nat, exitTimes start (indexShutdown sig) = [start]) := by
  refine ⟨fun n start => ⟨?_, rfl, rfl⟩, fun sig => ⟨rfl, rfl, fun start => rfl⟩⟩
  simp [socketServerOnSignal]

/-! ## Claim C9 -/

/-- C9: a `join_room` frame from a registered session whose `data.roomId`
is not a string gets exactly one reply frame
`{event:"error", data:{error:"INVALID_ROOM_ID"}}`, the server state is
unchanged (no room created or mutated), and `INVALID_ROOM_ID` is not among
the error codes the spec lists. -/
theorem c9_invalid_room_id (s : ServerState) (p freshRoomId : String)
    (ws t0 t1 : Nat) (handlerThrows : Bool)
    (hid : getClientId s ws = some p) :
    handleEvent s "join_room" EventData.otherData ws freshRoomId t0 t1 handlerThrows =
      (s, [Action.send ws "error" (JsonData.errorCode "INVALID_ROOM_ID")]) ∧
    specErrorCodes.contains "INVALID_ROOM_ID" = false := by
  refine ⟨?_, by decide⟩
  rw [handleEvent_of_getClientId s _ _ ws freshRoomId t0 t1 handlerThrows p hid]
  rfl

/-- Witness for C9: concrete registered session sending a `join_room` frame
with a non-string `roomId`. -/
theorem c9_witness :
    handleEvent ⟨[("alice", 1)], [], [], ⟨[]⟩⟩ "join_room" EventData.otherData
        1 "rid" 0 0 false =
      (⟨[("alice", 1)], [], [], ⟨[]⟩⟩,
       [Action.send 1 "error" (JsonData.errorCode "INVALID_ROOM_ID")]) :=
  (c9_invalid_room_id ⟨[("alice", 1)], [], [], ⟨[]⟩⟩ "alice" "rid" 1 0 0 false rfl).1

/-! ## Claim C2 -/

/-- C2 counterexample: `alice` is the only live session and completes one
dispatched `giftList` event whose measured elapsed time is `100 - 100 = 0`;
the sample is recorded, yet `getGlobalLatency` is `none` rather than the
event's measured latency, because the code filters out samples `≤ 0`. -/
theorem c2_counterexample :
    (handleEvent ⟨[("alice", 1)], [], ["giftList"], ⟨[]⟩⟩ "giftList"
        EventData.otherData 1 "fresh" 100 100 false).1.latencies =
      [("alice", ⟨100, 0⟩)] ∧
    getGlobalLatency (handleEvent ⟨[("alice", 1)], [], ["giftList"], ⟨[]⟩⟩ "giftList"
        EventData.otherData 1 "fresh" 100 100 false).1 = none := by
  constructor <;> rfl

/-- C2 (amended): `getGlobalLatency` returns null exactly when no recorded
sample is positive (zero-valued samples are excluded, and samples are kept —
they survive the session's disconnect, so dead sessions still count);
otherwise it averages the positive recorded samples.  In particular, after
exactly one session completes exactly one dispatched event with positive
measured elapsed time, the global average equals that latency exactly. -/
theorem c2_global_latency (s : ServerState) (p event freshRoomId : String)
    (data : EventData) (ws t0 t1 : Nat)
    (hlat : s.latencies = [])
    (hid : getClientId s ws = some p)
    (hreg : event ∈ s.eventHandlers)
    (hroom : event ∉ roomEventNames)
    (hpos : 0 < t1 - t0) :
    getGlobalLatency (handleEvent s event data ws freshRoomId t0 t1 false).1 =
      some ((t1 - t0 : ℕ) : ℚ) ∧
    (∀ s' : ServerState, getGlobalLatency s' = none ↔
      ∀ d ∈ s'.latencies, d.2.latency = 0) ∧
    (∀ (s' : ServerState) (w : Nat),
      getGlobalLatency (handleClose s' w) = getGlobalLatency s') := by
  refine ⟨?_, fun s' => getGlobalLatency_eq_none_iff s', fun s' w => rfl⟩
  have h1 : event ≠ "create_room" := by
    intro he; exact hroom (by rw [he]; exact List.mem_cons_self _ _)
  have h2 : event ≠ "join_room" := by
    intro he; exact hroom (by rw [he]; simp [roomEventNames])
  have h3 : event ≠ "leave_room" := by
    intro he; exact hroom (by rw [he]; simp [roomEventNames])
  rw [handleEvent_of_getClientId s event data ws freshRoomId t0 t1 false p hid]
  simp only [handleBuiltin, h1, h2, h3, if_false, ite_false]
  simp only [handleDispatch, hreg, if_true, ite_true, Bool.false_eq_true, ite_false]
  rw [hlat]
  simp [getGlobalLatency, setLatency, hpos, Nat.pos_iff_ne_zero.mp hpos]

/-- Witness for C2: one live session, one dispatched event taking 7 ms. -/
theorem c2_witness :
    getGlobalLatency (handleEvent ⟨[("alice", 1)], [], ["giftList"], ⟨[]⟩⟩ "giftList"
        EventData.otherData 1 "fresh" 100 107 false).1 =
      some ((107 - 100 : ℕ) : ℚ) :=
  (c2_global_latency ⟨[("alice", 1)], [], ["giftList"], ⟨[]⟩⟩ "alice" "giftList"
    "fresh" EventData.otherData 1 100 107 rfl rfl (by decide) (by decide) (by decide)).1

/-! ## Claim C6 -/

/-- C6: a `join_room` for a room that does not exist, or that already holds
`maxPlayers` members, makes `joinRoom` return null with the room table
untouched, and the router replies to the caller with exactly one
`{event:"error", data:{error:"ROOM_FULL_OR_NOT_FOUND"}}` frame — the same
observable reply for both failure causes — leaving the server state
unchanged. -/
theorem c6_join_room_failure (s : ServerState) (p freshRoomId roomId : String)
    (ws t0 t1 : Nat) (handlerThrows : Bool)
    (hid : getClientId s ws = some p)
    (hnh : "join_room" ∉ s.eventHandlers)
    (hfail : s.roomManager.getRoom roomId = none ∨
      ∃ room, s.roomManager.getRoom roomId = some room ∧
        room.maxPlayers ≤ room.players.length) :
    s.roomManager.joinRoom p roomId = (none, s.roomManager) ∧
    handleEvent s "join_room" (EventData.withRoomId roomId) ws freshRoomId
        t0 t1 handlerThrows =
      (s, [Action.send ws "error" (JsonData.errorCode "ROOM_FULL_OR_NOT_FOUND")]) := by
  have hjoin : s.roomManager.joinRoom p roomId = (none, s.roomManager) := by
    unfold RoomManager.joinRoom
    rcases hfail with h | ⟨room, hg, hfull⟩
    · rw [h]
    · rw [hg]
      simp [hfull]
  refine ⟨hjoin, ?_⟩
  rw [handleEvent_of_getClientId s _ _ ws freshRoomId t0 t1 handlerThrows p hid]
  simp [handleBuiltin, handleDispatch, hjoin, hnh, roomEventNames]

/-- Witness for C6: joining a nonexistent room id on an empty room table. -/
theorem c6_witness :
    handleEvent ⟨[("alice", 1)], [], [], ⟨[]⟩⟩ "join_room"
        (EventData.withRoomId "ghost") 1 "fresh" 0 0 false =
      (⟨[("alice", 1)], [], [], ⟨[]⟩⟩,
       [Action.send 1 "error" (JsonData.errorCode "ROOM_FULL_OR_NOT_FOUND")]) :=
  (c6_join_room_failure ⟨[("alice", 1)], [], [], ⟨[]⟩⟩ "alice" "fresh" "ghost"
    1 0 0 false rfl (by decide) (Or.inl rfl)).2

/-! ## Claim C7 -/

/-- When the first room containing `p` has exactly `[p]` as members,
`leaveRoom`'s walk deletes it: no room with its id remains. -/
theorem leaveRoomAux_deletes (p : String) (r : Room) (rooms : List Room)
    (hids : (rooms.map Room.id).Nodup)
    (hf : rooms.find? (fun r0 => decide (p ∈ r0.players)) = some r)
    (hlast : r.players = [p]) :
    ∀ r' ∈ RoomManager.leaveRoomAux p rooms, r'.id ≠ r.id := by
  induction rooms with
  | nil => simp [List.find?] at hf
  | cons r0 rs ih =>
    rw [List.map_cons, List.nodup_cons] at hids
    by_cases hmem : p ∈ r0.players
    · rw [List.find?_cons_of_pos _ (by simpa using hmem)] at hf
      injection hf with hf
      subst hf
      intro r' hr' heq
      have hstep : RoomManager.leaveRoomAux p (r0 :: rs) = rs := by
        simp [RoomManager.leaveRoomAux, hmem, hlast, removeFirst]
      rw [hstep] at hr'
      have hmm : r'.id ∈ rs.map Room.id := List.mem_map_of_mem Room.id hr'
      rw [heq] at hmm
      exact hids.1 hmm
    · rw [List.find?_cons_of_neg _ (by simpa using hmem)] at hf
      intro r' hr'
      have hstep : RoomManager.leaveRoomAux p (r0 :: rs) =
          r0 :: RoomManager.leaveRoomAux p rs := by
        simp [RoomManager.leaveRoomAux, hmem]
      rw [hstep] at hr'
      rcases List.mem_cons.mp hr' with rfl | hr'
      · intro heq
        have hrmem : r ∈ rs := List.mem_of_find?_eq_some hf
        have hmm : r.id ∈ rs.map Room.id := List.mem_map_of_mem Room.id hrmem
        rw [← heq] at hmm
        exact hids.1 hmm
      · exact ih hids.2 hf r' hr'

/-- `joinRoom` fails and changes nothing when no room carries the id. -/
theorem joinRoom_of_id_absent (m : RoomManager) (q rid : String)
    (h : ∀ r' ∈ m.rooms, r'.id ≠ rid) :
    m.joinRoom q rid = (none, m) := by
  have hg : m.getRoom rid = none := by
    rw [RoomManager.getRoom, List.find?_eq_none]
    intro r hr
    simpa using h r hr
  unfold RoomManager.joinRoom
  rw [hg]

/-- `leaveRoom` never leaves an empty room behind. -/
theorem leaveRoomAux_no_empty (p : String) (rooms : List Room)
    (h : ∀ r ∈ rooms, r.players ≠ []) :
    ∀ r' ∈ RoomManager.leaveRoomAux p rooms, r'.players ≠ [] := by
  induction rooms with
  | nil => simp [RoomManager.leaveRoomAux]
  | cons r0 rs ih =>
    by_cases hmem : p ∈ r0.players
    · by_cases hemp : removeFirst p r0.players = []
      · have hstep : RoomManager.leaveRoomAux p (r0 :: rs) = rs := by
          simp [RoomManager.leaveRoomAux, hmem, hemp]
        rw [hstep]
        exact fun r' hr' => h r' (List.mem_cons_of_mem _ hr')
      · have hstep : RoomManager.leaveRoomAux p (r0 :: rs) =
            { r0 with players := removeFirst p r0.players } :: rs := by
          simp [RoomManager.leaveRoomAux, hmem, hemp]
        rw [hstep]
        intro r' hr'
        rcases List.mem_cons.mp hr' with heq | hr'
        · rw [heq]
          simpa using hemp
        · exact h r' (List.mem_cons_of_mem _ hr')
    · have hstep : RoomManager.leaveRoomAux p (r0 :: rs) =
          r0 :: RoomManager.leaveRoomAux p rs := by
        simp [RoomManager.leaveRoomAux, hmem]
      rw [hstep]
      intro r' hr'
      rcases List.mem_cons.mp hr' with heq | hr'
      · rw [heq]
        exact h r0 (List.mem_cons_self _ _)
      · exact ih (fun r hr => h r (List.mem_cons_of_mem _ hr)) r' hr'

/-- C7: when `leaveRoom` removes the last remaining member of the room
containing the player, that room is deleted from the table at once — its id
is gone, every later `joinRoom` with that id returns null and changes
nothing — and (given no room was empty before) no room with zero members
persists. -/
theorem c7_empty_room_deleted (m : RoomManager) (p : String) (r : Room)
    (hids : (m.rooms.map Room.id).Nodup)
    (hfind : m.getRoomByPlayer p = some r)
    (hlast : r.players = [p]) :
    (∀ r' ∈ (m.leaveRoom p).rooms, r'.id ≠ r.id) ∧
    (∀ q : String, (m.leaveRoom p).joinRoom q r.id = (none, m.leaveRoom p)) ∧
    ((∀ r0 ∈ m.rooms, r0.players ≠ []) →
      ∀ r' ∈ (m.leaveRoom p).rooms, r'.players ≠ []) := by
  have hf : m.rooms.find? (fun r0 => decide (p ∈ r0.players)) = some r := hfind
  have hdel := leaveRoomAux_deletes p r m.rooms hids hf hlast
  exact ⟨hdel, fun q => joinRoom_of_id_absent (m.leaveRoom p) q r.id hdel,
    fun hne => leaveRoomAux_no_empty p m.rooms hne⟩

/-- Witness for C7: `alice` leaves the room she is alone in; `bob` can no
longer join it. -/
theorem c7_witness :
    (RoomManager.leaveRoom ⟨[⟨"r1", ["alice"], 4, 0⟩]⟩ "alice").joinRoom "bob" "r1" =
      (none, RoomManager.leaveRoom ⟨[⟨"r1", ["alice"], 4, 0⟩]⟩ "alice") :=
  (c7_empty_room_deleted ⟨[⟨"r1", ["alice"], 4, 0⟩]⟩ "alice" ⟨"r1", ["alice"], 4, 0⟩
    (by decide) (by decide) rfl).2.1 "bob"

/-! ## Claim C10 -/

/-- Whatever the handler table holds, the generic-dispatch tail only appends
non-`send` actions (handler invocation, log lines) after the built-in
block's frames. -/
theorem handleDispatch_suffix (s1 : ServerState) (event p : String)
    (ws t0 t1 : Nat) (th : Bool) (acts : List Action) :
    ∃ suffix : List Action,
      (handleDispatch s1 event p ws t0 t1 th acts).2 = acts ++ suffix ∧
      ∀ a ∈ suffix, ∀ w e d, a ≠ Action.send w e d := by
  unfold handleDispatch
  split_ifs
  · refine ⟨[Action.invokeHandler event ws,
      Action.logWarn ("Error handling event " ++ event)], rfl, ?_⟩
    intro a ha w e d heq
    rw [heq] at ha
    simp at ha
  · refine ⟨[Action.invokeHandler event ws], rfl, ?_⟩
    intro a ha w e d heq
    rw [heq] at ha
    simp at ha
  · refine ⟨[], (List.append_nil acts).symm, ?_⟩
    intro a ha
    cases ha
  · refine ⟨[Action.logWarn ("No handler for event: " ++ event)], rfl, ?_⟩
    intro a ha w e d heq
    rw [heq] at ha
    simp at ha

/-- `handleEvent` reduces to the generic-dispatch tail once the built-in
block's outcome is known and it did not return early. -/
theorem handleEvent_eq_dispatch (s : ServerState) (event : String)
    (data : EventData) (ws : Nat) (freshRoomId : String) (t0 t1 : Nat)
    (th : Bool) (p : String) (s1 : ServerState) (acts : List Action)
    (hid : getClientId s ws = some p)
    (hb : handleBuiltin s event data ws p freshRoomId t0 = (s1, acts, false)) :
    handleEvent s event data ws freshRoomId t0 t1 th =
      handleDispatch s1 event p ws t0 t1 th acts := by
  rw [handleEvent_of_getClientId s event data ws freshRoomId t0 t1 th p hid, hb]

/-- Value of the built-in block on a successful `join_room`. -/
theorem handleBuiltin_join (s : ServerState) (p freshRoomId roomId : String)
    (ws t0 : Nat) (room : Room) (rm : RoomManager)
    (hjoin : s.roomManager.joinRoom p roomId = (some room, rm)) :
    handleBuiltin s "join_room" (EventData.withRoomId roomId) ws p freshRoomId t0 =
      ({ s with roomManager := rm },
       room.players.filterMap (fun pid =>
         (getClientWebsocket s pid).map (fun w =>
           Action.send w "room_updated" (JsonData.wrappedRoom room))), false) := by
  unfold handleBuiltin
  rw [if_neg (by decide), if_pos rfl]
  split
  next x heq =>
    injection heq with hx
    subst hx
    split
    next snd heq2 =>
      rw [hjoin] at heq2
      injection heq2 with h1 h2
      cases h1
    next room2 rm2 heq2 =>
      rw [hjoin] at heq2
      injection heq2 with h1 h2
      injection h1 with h1
      subst h1
      subst h2
      rfl
  next x heq => cases heq

/-- Value of the built-in block on a `leave_room` from a player in a room. -/
theorem handleBuiltin_leave (s : ServerState) (p freshRoomId : String)
    (ws t0 : Nat) (room : Room)
    (hfound : s.roomManager.getRoomByPlayer p = some room) :
    handleBuiltin s "leave_room" EventData.otherData ws p freshRoomId t0 =
      ({ s with roomManager := s.roomManager.leaveRoom p },
       (removeFirst p room.players).filterMap (fun pid =>
         (getClientWebsocket s pid).map (fun w =>
           Action.send w "room_updated"
             (JsonData.rawRoom { room with players := removeFirst p room.players }))),
       false) := by
  unfold handleBuiltin
  rw [if_neg (by decide), if_neg (by decide), if_pos rfl]
  split
  next heq =>
    rw [hfound] at heq
    cases heq
  next room2 heq =>
    rw [hfound] at heq
    injection heq with h1
    subst h1
    rfl

/-- C10: the `data` field of the frames produced by the built-in room events
is not uniform — the `create_room` reply and `join_room`'s `room_updated`
broadcasts carry `{payload: room}`, while `leave_room`'s `room_updated`
broadcasts carry the raw Room object, and the two shapes differ. -/
theorem c10_frame_payload_shapes (s : ServerState) (p freshRoomId roomId : String)
    (ws t0 t1 : Nat) (handlerThrows : Bool)
    (hid : getClientId s ws = some p) :
    ((handleEvent s "create_room" EventData.otherData ws freshRoomId t0 t1
        handlerThrows).2.head? =
      some (Action.send ws "room_created"
        (JsonData.wrappedRoom ⟨freshRoomId, [p], 4, t0⟩))) ∧
    (∀ room rm, s.roomManager.joinRoom p roomId = (some room, rm) →
      ∀ a ∈ (handleEvent s "join_room" (EventData.withRoomId roomId) ws
          freshRoomId t0 t1 handlerThrows).2,
        ∀ w e d, a = Action.send w e d → e = "room_updated" →
          d = JsonData.wrappedRoom room) ∧
    (∀ room, s.roomManager.getRoomByPlayer p = some room →
      ∀ a ∈ (handleEvent s "leave_room" EventData.otherData ws freshRoomId
          t0 t1 handlerThrows).2,
        ∀ w e d, a = Action.send w e d → e = "room_updated" →
          d = JsonData.rawRoom { room with players := removeFirst p room.players }) ∧
    (∀ room : Room, JsonData.wrappedRoom room ≠ JsonData.rawRoom room) := by
  refine ⟨?_, ?_, ?_, fun room h => by cases h⟩
  · rw [handleEvent_eq_dispatch s "create_room" EventData.otherData ws freshRoomId
        t0 t1 handlerThrows p _ _ hid rfl]
    rcases handleDispatch_suffix { s with roomManager :=
        (s.roomManager.createRoom p freshRoomId t0).2 } "create_room" p ws t0 t1
        handlerThrows [Action.send ws "room_created"
          (JsonData.wrappedRoom (s.roomManager.createRoom p freshRoomId t0).1)]
        with ⟨suffix, hsuf, _⟩
    rw [hsuf]
    rfl
  · intro room rm hjoin a ha w e d haeq heq
    rw [handleEvent_eq_dispatch s "join_room" (EventData.withRoomId roomId) ws
        freshRoomId t0 t1 handlerThrows p _ _ hid
        (handleBuiltin_join s p freshRoomId roomId ws t0 room rm hjoin)] at ha
    rcases handleDispatch_suffix { s with roomManager := rm } "join_room" p ws t0 t1
        handlerThrows _ with ⟨suffix, hsuf, hns⟩
    rw [hsuf] at ha
    rcases List.mem_append.mp ha with hmem | hmem
    · rcases List.mem_filterMap.mp hmem with ⟨pid, _, hopt⟩
      rcases Option.map_eq_some'.mp hopt with ⟨w', _, haeq2⟩
      rw [haeq] at haeq2
      have := (Action.send.injEq _ _ _ _ _ _).mp haeq2.symm
      exact this.2.2
    · exact absurd haeq (hns a hmem w e d)
  · intro room hfound a ha w e d haeq heq
    rw [handleEvent_eq_dispatch s "leave_room" EventData.otherData ws freshRoomId
        t0 t1 handlerThrows p _ _ hid
        (handleBuiltin_leave s p freshRoomId ws t0 room hfound)] at ha
    rcases handleDispatch_suffix { s with roomManager := s.roomManager.leaveRoom p }
        "leave_room" p ws t0 t1 handlerThrows _ with ⟨suffix, hsuf, hns⟩
    rw [hsuf] at ha
    rcases List.mem_append.mp ha with hmem | hmem
    · rcases List.mem_filterMap.mp hmem with ⟨pid, _, hopt⟩
      rcases Option.map_eq_some'.mp hopt with ⟨w', _, haeq2⟩
      rw [haeq] at haeq2
      have := (Action.send.injEq _ _ _ _ _ _).mp haeq2.symm
      exact this.2.2
    · exact absurd haeq (hns a hmem w e d)

/-- Witness for C10: concrete `create_room` reply carries `{payload: room}`. -/
theorem c10_witness :
    (handleEvent ⟨[("alice", 1)], [], [], ⟨[]⟩⟩ "create_room" EventData.otherData
        1 "rid" 5 6 false).2.head? =
      some (Action.send 1 "room_created"
        (JsonData.wrappedRoom ⟨"rid", ["alice"], 4, 5⟩)) :=
  (c10_frame_payload_shapes ⟨[("alice", 1)], [], [], ⟨[]⟩⟩ "alice" "rid" "x"
    1 5 6 false rfl).1

/-! ## Claim C3 -/

/-- Splicing out the first occurrence yields a sublist. -/
theorem removeFirst_sublist (p : String) (l : List String) :
    List.Sublist (removeFirst p l) l := by
  induction l with
  | nil => exact List.Sublist.refl []
  | cons x xs ih =>
    by_cases h : x = p
    · simp only [removeFirst, if_pos h]
      exact (List.Sublist.refl xs).cons x
    · simp only [removeFirst, if_neg h]
      exact ih.cons₂ x

/-- `leaveRoom` only ever removes members: the concatenated member lists of
the resulting table form a sublist of the original ones. -/
theorem leaveRoomAux_members_sublist (p : String) (rooms : List Room) :
    List.Sublist ((RoomManager.leaveRoomAux p rooms).map Room.players).flatten
      ((rooms.map Room.players).flatten) := by
  induction rooms with
  | nil => exact List.Sublist.refl _
  | cons r0 rs ih =>
    by_cases hmem : p ∈ r0.players
    · by_cases hemp : removeFirst p r0.players = []
      · have hstep : RoomManager.leaveRoomAux p (r0 :: rs) = rs := by
          simp [RoomManager.leaveRoomAux, hmem, hemp]
        rw [hstep, List.map_cons, List.flatten_cons]
        exact List.sublist_append_right _ _
      · have hstep : RoomManager.leaveRoomAux p (r0 :: rs) =
            { r0 with players := removeFirst p r0.players } :: rs := by
          simp [RoomManager.leaveRoomAux, hmem, hemp]
        rw [hstep, List.map_cons, List.flatten_cons, List.map_cons, List.flatten_cons]
        exact (removeFirst_sublist p r0.players).append (List.Sublist.refl _)
    · have hstep : RoomManager.leaveRoomAux p (r0 :: rs) =
          r0 :: RoomManager.leaveRoomAux p rs := by
        simp [RoomManager.leaveRoomAux, hmem]
      rw [hstep, List.map_cons, List.flatten_cons, List.map_cons, List.flatten_cons]
      exact (List.Sublist.refl r0.players).append ih

/-- `Map.set` with a key no present room carries appends the room. -/
theorem setRoom_of_fresh (rooms : List Room) (r : Room)
    (h : ∀ r0 ∈ rooms, r0.id ≠ r.id) :
    setRoom rooms r = rooms ++ [r] := by
  induction rooms with
  | nil => rfl
  | cons r0 rs ih =>
    have h0 : r0.id ≠ r.id := h r0 (List.mem_cons_self _ _)
    simp only [setRoom, if_neg h0, List.cons_append, List.cons.injEq, true_and]
    exact ih (fun r1 hr1 => h r1 (List.mem_cons_of_mem _ hr1))

/-- A successful `joinRoom` update permutes the concatenated member lists
into the old ones with the joiner appended. -/
theorem joinRoom_members_perm (p rid : String) (rooms : List Room) (room : Room)
    (hfind : rooms.find? (fun r => decide (r.id = rid)) = some room) :
    List.Perm
      ((setRoom rooms { room with players := room.players ++ [p] }).map
        Room.players).flatten
      ((rooms.map Room.players).flatten ++ [p]) := by
  induction rooms with
  | nil => simp [List.find?] at hfind
  | cons r0 rs ih =>
    by_cases h : r0.id = rid
    · rw [List.find?_cons_of_pos _ (by simpa using h)] at hfind
      injection hfind with hfind
      subst hfind
      have hset : setRoom (r0 :: rs) { r0 with players := r0.players ++ [p] } =
          { r0 with players := r0.players ++ [p] } :: rs := by
        simp [setRoom]
      rw [hset, List.map_cons, List.flatten_cons, List.map_cons, List.flatten_cons,
          List.append_assoc, List.append_assoc]
      exact List.Perm.append_left _ List.perm_append_comm
    · rw [List.find?_cons_of_neg _ (by simpa using h)] at hfind
      have hrid : room.id = rid := by simpa using List.find?_some hfind
      have hne : r0.id ≠ room.id := fun hc => h (hc.trans hrid)
      have hset : setRoom (r0 :: rs) { room with players := room.players ++ [p] } =
          r0 :: setRoom rs { room with players := room.players ++ [p] } := by
        simp [setRoom, hne]
      rw [hset, List.map_cons, List.flatten_cons, List.map_cons, List.flatten_cons,
          List.append_assoc]
      exact List.Perm.append_left _ (ih hfind)

/-- Appending a fresh element keeps a duplicate-free list duplicate-free. -/
theorem nodup_append_singleton {l : List String} {p : String}
    (h : l.Nodup) (hp : p ∉ l) : (l ++ [p]).Nodup := by
  rw [List.nodup_append]
  refine ⟨h, List.nodup_singleton p, ?_⟩
  intro x hx hxp
  rw [List.mem_singleton] at hxp
  subst hxp
  exact hp hx

/-- C3 counterexample: starting from a table where the invariant holds,
`alice` (already the room's only member) sends `join_room` for her own room;
`joinRoom` performs no membership check and pushes her again, so she now
occurs twice in the union of the member lists. -/
theorem c3_counterexample :
    membersAtMostOnce ⟨[⟨"r1", ["alice"], 4, 0⟩]⟩ ∧
    ¬ membersAtMostOnce
      (RoomManager.joinRoom ⟨[⟨"r1", ["alice"], 4, 0⟩]⟩ "alice" "r1").2 := by
  constructor
  · decide
  · decide

/-- C3 (amended): `leaveRoom` always preserves the at-most-once membership
invariant, and `createRoom` (with a fresh id) and `joinRoom` preserve it
when the acting player is not already a member anywhere — but neither
operation checks this, so a player already in a room who creates or joins
another one breaks the invariant. -/
theorem c3_membership_invariant (m : RoomManager) (p freshId rid : String)
    (now : Nat) (hm : membersAtMostOnce m) :
    membersAtMostOnce (m.leaveRoom p) ∧
    ((∀ r0 ∈ m.rooms, r0.id ≠ freshId) → p ∉ allMembers m →
      membersAtMostOnce (m.createRoom p freshId now).2) ∧
    (p ∉ allMembers m → membersAtMostOnce (m.joinRoom p rid).2) := by
  refine ⟨?_, ?_, ?_⟩
  · exact hm.sublist (leaveRoomAux_members_sublist p m.rooms)
  · intro hfresh hp
    have hset := setRoom_of_fresh m.rooms ⟨freshId, [p], 4, now⟩ hfresh
    show (((setRoom m.rooms ⟨freshId, [p], 4, now⟩).map Room.players).flatten).Nodup
    rw [hset, List.map_append, List.flatten_append]
    simp only [List.map_cons, List.map_nil, List.flatten_cons, List.flatten_nil,
      List.append_nil]
    exact nodup_append_singleton hm hp
  · intro hp
    unfold RoomManager.joinRoom
    split
    next heq => exact hm
    next room heq =>
      split_ifs with hfull
      · exact hm
      · have hperm := joinRoom_members_perm p rid m.rooms room heq
        exact hperm.nodup_iff.mpr (nodup_append_singleton hm hp)

/-- Witness for C3: `alice`, in no room, joins `bob`'s room; the invariant
is preserved. -/
theorem c3_witness :
    membersAtMostOnce
      (RoomManager.joinRoom ⟨[⟨"r1", ["bob"], 4, 0⟩]⟩ "alice" "r1").2 :=
  (c3_membership_invariant ⟨[⟨"r1", ["bob"], 4, 0⟩]⟩ "alice" "r2" "r1" 1
    (by decide)).2.2 (by decide)

/-! ## Claim C4 -/

/-- The built-in `switch` block emits only `send` frames, never a handler
invocation. -/
theorem handleBuiltin_no_invoke (s : ServerState) (event : String)
    (data : EventData) (ws : Nat) (q freshRoomId : String) (t0 : Nat)
    (e : String) (w : Nat) :
    Action.invokeHandler e w ∉ (handleBuiltin s event data ws q freshRoomId t0).2.1 := by
  unfold handleBuiltin
  split_ifs with h1 h2 h3
  · simp
  · rcases data with roomId | _
    · rcases hj : s.roomManager.joinRoom q roomId with ⟨res, rm⟩
      rcases res with _ | room
      · simp [hj]
      · simp [hj, List.mem_filterMap, Option.map_eq_some']
    · simp
  · rcases hg : s.roomManager.getRoomByPlayer q with _ | room
    · simp [hg]
    · simp [hg, List.mem_filterMap, Option.map_eq_some']
  · simp

/-- The built-in block never touches the handler table. -/
theorem handleBuiltin_eventHandlers (s : ServerState) (event : String)
    (data : EventData) (ws : Nat) (q freshRoomId : String) (t0 : Nat) :
    (handleBuiltin s event data ws q freshRoomId t0).1.eventHandlers =
      s.eventHandlers := by
  unfold handleBuiltin
  split_ifs with h1 h2 h3
  · rfl
  · rcases data with roomId | _
    · rcases hj : s.roomManager.joinRoom q roomId with ⟨res, rm⟩
      rcases res with _ | room
      · simp [hj]
      · simp [hj]
    · rfl
  · rcases hg : s.roomManager.getRoomByPlayer q with _ | room
    · simp [hg]
    · simp [hg]
  · rfl

/-- The built-in block returns early exactly for a `join_room` frame whose
`roomId` is not a string. -/
theorem handleBuiltin_early_iff (s : ServerState) (event : String)
    (data : EventData) (ws : Nat) (q freshRoomId : String) (t0 : Nat) :
    (handleBuiltin s event data ws q freshRoomId t0).2.2 = true ↔
      (event = "join_room" ∧ data = EventData.otherData) := by
  unfold handleBuiltin
  split_ifs with h1 h2 h3
  · subst h1
    simp
  · subst h2
    rcases data with roomId | _
    · rcases hj : s.roomManager.joinRoom q roomId with ⟨res, rm⟩
      rcases res with _ | room
      · simp [hj]
      · simp [hj]
    · simp
  · subst h3
    rcases hg : s.roomManager.getRoomByPlayer q with _ | room
    · simp [hg, h2]
    · simp [hg, h2]
  · simp [h2]

/-- `handleEvent` when the reverse lookup fails: log and drop. -/
theorem handleEvent_no_sender (s : ServerState) (event : String)
    (data : EventData) (ws : Nat) (freshRoomId : String) (t0 t1 : Nat)
    (th : Bool) (hc : getClientId s ws = none) :
    handleEvent s event data ws freshRoomId t0 t1 th =
      (s, [Action.logWarn "Player ID not found for the WebSocket connection"]) := by
  unfold handleEvent
  rw [hc]

/-- `handleEvent` when the built-in block returns early. -/
theorem handleEvent_early (s : ServerState) (event : String) (data : EventData)
    (ws : Nat) (freshRoomId : String) (t0 t1 : Nat) (th : Bool) (p : String)
    (s1 : ServerState) (acts : List Action)
    (hid : getClientId s ws = some p)
    (hb : handleBuiltin s event data ws p freshRoomId t0 = (s1, acts, true)) :
    handleEvent s event data ws freshRoomId t0 t1 th = (s1, acts) := by
  rw [handleEvent_of_getClientId s event data ws freshRoomId t0 t1 th p hid, hb]

/-- When the event has no registered handler, generic dispatch invokes
nothing. -/
theorem handleDispatch_not_registered (s1 : ServerState) (event q : String)
    (ws t0 t1 : Nat) (th : Bool) (acts : List Action)
    (h : event ∉ s1.eventHandlers) (e : String) (w : Nat)
    (hni : Action.invokeHandler e w ∉ acts) :
    Action.invokeHandler e w ∉ (handleDispatch s1 event q ws t0 t1 th acts).2 := by
  unfold handleDispatch
  rw [if_neg h]
  split_ifs
  · exact hni
  · intro hin
    rcases List.mem_append.mp hin with hin1 | hin1
    · exact hni hin1
    · simp at hin1

/-- When the event has a registered handler, generic dispatch invokes it. -/
theorem handleDispatch_registered (s1 : ServerState) (event q : String)
    (ws t0 t1 : Nat) (th : Bool) (acts : List Action)
    (h : event ∈ s1.eventHandlers) :
    Action.invokeHandler event ws ∈ (handleDispatch s1 event q ws t0 t1 th acts).2 := by
  unfold handleDispatch
  rw [if_pos h]
  split_ifs
  · exact List.mem_append.mpr (Or.inr (List.mem_cons_self _ _))
  · exact List.mem_append.mpr (Or.inr (List.mem_cons_self _ _))

/-- C4 counterexample: with a handler registered under `create_room`, a
`create_room` frame is handled by the room component *and* the registered
handler is invoked — the generic handler table is consulted for built-in
room events. -/
theorem c4_counterexample :
    (handleEvent ⟨[("alice", 1)], [], ["create_room"], ⟨[]⟩⟩ "create_room"
        EventData.otherData 1 "rid" 0 0 false).2 =
      [Action.send 1 "room_created" (JsonData.wrappedRoom ⟨"rid", ["alice"], 4, 0⟩),
       Action.invokeHandler "create_room" 1] := by
  rfl

/-- C4 (amended): `create_room`, `join_room` and `leave_room` frames are
handled directly against the room component, but the router still consults
the generic handler table afterwards: when no handler is registered under
the name nothing is invoked (and none of the three names is in the default
table), but a handler registered under the name is invoked as well — except
for `join_room` frames whose `roomId` is not a string, which return before
the lookup. -/
theorem c4_room_events_handler_table (s : ServerState) (event : String)
    (data : EventData) (ws t0 t1 : Nat) (freshRoomId p : String) (th : Bool)
    (hevent : event ∈ roomEventNames) :
    event ∉ defaultEventNames ∧
    (event ∉ s.eventHandlers →
      ∀ e w, Action.invokeHandler e w ∉
        (handleEvent s event data ws freshRoomId t0 t1 th).2) ∧
    (event ∈ s.eventHandlers → getClientId s ws = some p →
      (event = "join_room" → data ≠ EventData.otherData) →
      Action.invokeHandler event ws ∈
        (handleEvent s event data ws freshRoomId t0 t1 th).2) := by
  refine ⟨?_, ?_, ?_⟩
  · simp only [roomEventNames, List.mem_cons, List.not_mem_nil, or_false] at hevent
    rcases hevent with h | h | h
    · subst h; decide
    · subst h; decide
    · subst h; decide
  · intro hnreg e w hinv
    cases hc : getClientId s ws with
    | none =>
      rw [handleEvent_no_sender s event data ws freshRoomId t0 t1 th hc] at hinv
      simp at hinv
    | some q =>
      rcases hb : handleBuiltin s event data ws q freshRoomId t0 with ⟨s1, acts, early⟩
      have hno := handleBuiltin_no_invoke s event data ws q freshRoomId t0 e w
      rw [hb] at hno
      have hh := handleBuiltin_eventHandlers s event data ws q freshRoomId t0
      rw [hb] at hh
      cases early with
      | true =>
        rw [handleEvent_early s event data ws freshRoomId t0 t1 th q s1 acts hc hb] at hinv
        exact hno hinv
      | false =>
        rw [handleEvent_eq_dispatch s event data ws freshRoomId t0 t1 th q s1 acts hc hb] at hinv
        exact handleDispatch_not_registered s1 event q ws t0 t1 th acts
          (by rw [hh]; exact hnreg) e w hno hinv
  · intro hreg hid hguard
    have hearly : (handleBuiltin s event data ws p freshRoomId t0).2.2 = false := by
      rw [← Bool.not_eq_true, handleBuiltin_early_iff]
      rintro ⟨hj, hd⟩
      exact hguard hj hd
    rcases hb : handleBuiltin s event data ws p freshRoomId t0 with ⟨s1, acts, early⟩
    rw [hb] at hearly
    have hh := handleBuiltin_eventHandlers s event data ws p freshRoomId t0
    rw [hb] at hh
    cases early with
    | true => cases hearly
    | false =>
      rw [handleEvent_eq_dispatch s event data ws freshRoomId t0 t1 th p s1 acts hid hb]
      exact handleDispatch_registered s1 event p ws t0 t1 th acts
        (by rw [hh]; exact hreg)

/-- Witness for C4: the concrete registered-handler scenario of the
counterexample, reached through the amended theorem. -/
theorem c4_witness :
    Action.invokeHandler "create_room" 1 ∈
      (handleEvent ⟨[("alice", 1)], [], ["create_room"], ⟨[]⟩⟩ "create_room"
        EventData.otherData 1 "rid" 0 0 false).2 :=
  (c4_room_events_handler_table ⟨[("alice", 1)], [], ["create_room"], ⟨[]⟩⟩
    "create_room" EventData.otherData 1 0 0 "rid" "alice" false (by decide)).2.2
    (by decide) rfl (fun h => absurd h (by decide))

end OnlineServer
